/-
Verification of the in-memory fallback storage layer of the activity-signup
backend (`src/backend/database.py`).

The Python module stores documents in plain `dict`s.  We embed that layer
shallowly:

* A Python value is modelled by the inductive type `Value` (strings, integers,
  lists, and nested dicts — the only shapes the data model uses).
* A Python `dict` is modelled by an association list with unique keys, in
  insertion order; `dictSet` models item assignment `d[k] = v` (replace in
  place when the key is present, append otherwise), `dictUpdate` models
  `d.update(m)`, and `lookup?` models `d.get(k)`.
* A `MockCollection`'s backing storage is such a dict keyed by the documents'
  identity values.
* Operations that can raise in Python (dynamic attribute/type errors, missing
  `"_id"` keys) return `Option`, with `none` standing for the raised exception.
  Behaviour on shapes the data model never produces (e.g. iterating a
  non-list in `$in`, comparing non-strings) is likewise mapped to `none` or to
  a non-match; those shapes are outside the modelled fragment.
-/
import Mathlib

namespace MockDB

/-- A Python value as used by the database layer: strings, integers,
lists, and nested dicts (association lists in insertion order). -/
inductive Value where
  | str : String → Value
  | int : Int → Value
  | list : List Value → Value
  | obj : List (String × Value) → Value

mutual

/-- Structural equality of values (Python `==` on these shapes). -/
def Value.beq : Value → Value → Bool
  | .str a, .str b => a == b
  | .int a, .int b => a == b
  | .list a, .list b => Value.beqList a b
  | .obj a, .obj b => Value.beqObj a b
  | _, _ => false

/-- Structural equality of value lists. -/
def Value.beqList : List Value → List Value → Bool
  | [], [] => true
  | a :: as, b :: bs => Value.beq a b && Value.beqList as bs
  | _, _ => false

/-- Structural equality of field lists. -/
def Value.beqObj : List (String × Value) → List (String × Value) → Bool
  | [], [] => true
  | p :: ps, q :: qs => p.1 == q.1 && Value.beq p.2 q.2 && Value.beqObj ps qs
  | _, _ => false

end

mutual

theorem Value.beq_iff : (a b : Value) → (Value.beq a b = true ↔ a = b)
  | .str _, .str _ => by simp [Value.beq]
  | .str _, .int _ => by simp [Value.beq]
  | .str _, .list _ => by simp [Value.beq]
  | .str _, .obj _ => by simp [Value.beq]
  | .int _, .str _ => by simp [Value.beq]
  | .int _, .int _ => by simp [Value.beq]
  | .int _, .list _ => by simp [Value.beq]
  | .int _, .obj _ => by simp [Value.beq]
  | .list _, .str _ => by simp [Value.beq]
  | .list _, .int _ => by simp [Value.beq]
  | .list a, .list b => by simp [Value.beq, Value.beqList_iff a b]
  | .list _, .obj _ => by simp [Value.beq]
  | .obj _, .str _ => by simp [Value.beq]
  | .obj _, .int _ => by simp [Value.beq]
  | .obj _, .list _ => by simp [Value.beq]
  | .obj a, .obj b => by simp [Value.beq, Value.beqObj_iff a b]

theorem Value.beqList_iff : (a b : List Value) → (Value.beqList a b = true ↔ a = b)
  | [], [] => by simp [Value.beqList]
  | [], _ :: _ => by simp [Value.beqList]
  | _ :: _, [] => by simp [Value.beqList]
  | a :: as, b :: bs => by
      simp [Value.beqList, Value.beq_iff a b, Value.beqList_iff as bs]

theorem Value.beqObj_iff : (a b : List (String × Value)) → (Value.beqObj a b = true ↔ a = b)
  | [], [] => by simp [Value.beqObj]
  | [], _ :: _ => by simp [Value.beqObj]
  | _ :: _, [] => by simp [Value.beqObj]
  | p :: ps, q :: qs => by
      have h2 := Value.beq_iff p.2 q.2
      have h3 := Value.beqObj_iff ps qs
      simp only [Value.beqObj, Bool.and_eq_true, beq_iff_eq, h2, h3, List.cons.injEq]
      constructor
      · rintro ⟨⟨h1, hv⟩, hrest⟩
        exact ⟨Prod.ext h1 hv, hrest⟩
      · rintro ⟨hpq, hrest⟩
        exact ⟨⟨congrArg Prod.fst hpq, congrArg Prod.snd hpq⟩, hrest⟩

end

instance : DecidableEq Value := fun a b =>
  decidable_of_iff (Value.beq a b = true) (Value.beq_iff a b)

/-- A document: a Python dict from field name to value, in insertion order. -/
abbrev Doc := List (String × Value)

/-- `lookup? m k` models Python `m.get(k)` on a unique-keyed dict:
the value at the first occurrence of `k`, if any. -/
def lookup? {κ α : Type} [DecidableEq κ] : List (κ × α) → κ → Option α
  | [], _ => none
  | p :: rest, k => if p.1 = k then some p.2 else lookup? rest k

/-- `dictSet m k v` models Python item assignment `m[k] = v`: replace the
value in place if the key is present (keys keep their position), append a new
entry otherwise.  On the unique-keyed dicts the layer builds this is exact. -/
def dictSet {κ α : Type} [DecidableEq κ] : List (κ × α) → κ → α → List (κ × α)
  | [], k, v => [(k, v)]
  | p :: rest, k, v => if p.1 = k then (k, v) :: rest else p :: dictSet rest k v

/-- `dictUpdate d m` models Python `d.update(m)`: assign every pair of `m`
into `d`, in order. -/
def dictUpdate {κ α : Type} [DecidableEq κ] (d : List (κ × α)) (m : List (κ × α)) :
    List (κ × α) :=
  m.foldl (fun acc p => dictSet acc p.1 p.2) d

/-- `Value.getD v k d` models Python `v.get(k, d)` on a dict value.
A non-dict receiver would raise `AttributeError` in Python; the data model
only ever calls this on dicts, and we return the default there. -/
def Value.getD : Value → String → Value → Value
  | .obj m, k, d => (lookup? m k).getD d
  | _, _, d => d

/-- `docGetD doc k d` models Python `doc.get(k, d)` on a stored document. -/
def docGetD (doc : Doc) (k : String) (d : Value) : Value :=
  (lookup? doc k).getD d

/-- The backing storage of a `MockCollection`: a dict from identity value to
document, in insertion order. -/
abbrev MockCollection := List (Value × Doc)

/-- A query or update-spec condition: a dict from operator (`"$in"`, `"$gte"`,
`"$lte"`) or field name to operand. -/
abbrev Cond := List (String × Value)

/-- A query / update spec: a dict from field path (or update operator) to a
nested dict. -/
abbrev Query := List (String × Cond)

namespace MockCollection

/-- `count_documents`: `len(self.storage)`, ignoring the query argument. -/
def count_documents (c : MockCollection) (query : Query) : Nat :=
  c.length

/-- `insert_one`: reads `document["_id"]` (raising `KeyError`, i.e. `none`,
when absent) and stores the whole document under that key. -/
def insert_one (c : MockCollection) (document : Doc) : Option MockCollection :=
  match lookup? document "_id" with
  | none => none
  | some docId => some (dictSet c docId document)

/-- `find_one`: a falsy (empty) query yields `None`; otherwise the storage is
probed with `query.get("_id")` (probing with Python `None` — a query without
`"_id"` — never hits a stored key, hence `none`). -/
def find_one (c : MockCollection) (query : Doc) : Option Doc :=
  if query.isEmpty then none
  else
    match lookup? query "_id" with
    | none => none
    | some docId => lookup? c docId

/-- The `days` value consulted by `find` and `aggregate`:
`doc.get("schedule_details", {}).get("days", [])`. -/
def docDaysVal (doc : Doc) : Value :=
  (docGetD doc "schedule_details" (.obj [])).getD "days" (.list [])

/-- The `start_time` value consulted by `find`:
`doc.get("schedule_details", {}).get("start_time", "00:00")`. -/
def docStartVal (doc : Doc) : Value :=
  (docGetD doc "schedule_details" (.obj [])).getD "start_time" (.str "00:00")

/-- The `end_time` value consulted by `find`:
`doc.get("schedule_details", {}).get("end_time", "23:59")`. -/
def docEndVal (doc : Doc) : Value :=
  (docGetD doc "schedule_details" (.obj [])).getD "end_time" (.str "23:59")

/-- `any(day in doc_days for day in target_days)` for a list-shaped target
over a list-shaped days value; other shapes are outside the modelled
fragment (`none`, Python's dynamic `TypeError`). -/
def anyIn (target docDays : Value) : Option Bool :=
  match target, docDays with
  | .list ts, .list ds => some (ts.any (fun t => ds.contains t))
  | _, _ => none

/-- Python `<` on two string values; comparison of other shapes raises
(`none`).  Python compares strings lexicographically on code points, which
is exactly `<` on the strings' character lists (and equivalent to `<` on
`String` itself, see `String.lt_iff_toList_lt`). -/
def valueLt (a b : Value) : Option Bool :=
  match a, b with
  | .str x, .str y => some (decide (x.data < y.data))
  | _, _ => none

/-- One iteration of the condition loop in `find` (lines 56–78 of the
source): dispatch on the field path, consult the recognized operator when
present, and treat everything else as matching. -/
def condHolds (doc : Doc) (ckey : String) (cond : Cond) : Option Bool :=
  if ckey = "schedule_details.days" then
    match lookup? cond "$in" with
    | some target => anyIn target (docDaysVal doc)
    | none => some true
  else if ckey = "schedule_details.start_time" then
    match lookup? cond "$gte" with
    | some bound =>
        match valueLt (docStartVal doc) bound with
        | some b => some (!b)
        | none => none
    | none => some true
  else if ckey = "schedule_details.end_time" then
    match lookup? cond "$lte" with
    | some bound =>
        match valueLt bound (docEndVal doc) with
        | some b => some (!b)
        | none => none
    | none => some true
  else some true

/-- The condition loop of `find`: all conditions must hold (logical AND),
with Python's early `break` — a failed condition short-circuits before later
conditions can raise. -/
def docMatches (doc : Doc) : Query → Option Bool
  | [] => some true
  | (k, cond) :: rest =>
    match condHolds doc k cond with
    | none => none
    | some false => some false
    | some true => docMatches doc rest

/-- `dict(doc)` with `result_doc['_id'] = key`: the returned copy with the
identity merged back in. -/
def withId (key : Value) (doc : Doc) : Doc :=
  dictSet doc "_id" key

/-- All documents with identity merged in, in insertion order — the
empty-query branch of `find`. -/
def allWithId (c : MockCollection) : List Doc :=
  c.map (fun p => withId p.1 p.2)

/-- The filtering loop of `find` for a non-empty query. -/
def findFiltered (q : Query) : MockCollection → Option (List Doc)
  | [] => some []
  | p :: rest => do
    let m ← docMatches p.2 q
    let tail ← findFiltered q rest
    pure (if m then withId p.1 p.2 :: tail else tail)

/-- `find`: `query=None` or an empty query returns every document with the
identity merged in; otherwise documents are filtered by the condition loop. -/
def find (c : MockCollection) (query : Option Query) : Option (List Doc) :=
  match query with
  | none => some (allWithId c)
  | some q =>
    if q.isEmpty then some (allWithId c)
    else findFiltered q c

/-- `schedule_days` as a Lean list: the `days` value must be a list to be
iterated by `days.update(schedule_days)` (`none` models the raise). -/
def asList : Value → Option (List Value)
  | .list l => some l
  | _ => none

/-- The day-collection loop of `aggregate`, in storage order (the final sort
makes the collection order immaterial). -/
def collectDays : MockCollection → Option (List Value)
  | [] => some []
  | p :: rest =>
    match asList (docDaysVal p.2) with
    | none => none
    | some ds => (collectDays rest).map (fun tail => ds ++ tail)

/-- `sorted` over the day set needs comparable elements; the schema's days
are strings (`none` models a heterogeneous set, which `sorted` rejects). -/
def asStrings : List Value → Option (List String)
  | [] => some []
  | .str s :: rest => (asStrings rest).map (fun tail => s :: tail)
  | _ :: _ => none

/-- A decision procedure for `≤` on `String` through the character lists,
used so that sorting is computable by the kernel. -/
def decStrLe : DecidableRel (fun a b : String => a ≤ b) := fun a b =>
  decidable_of_iff (¬ b.toList < a.toList)
    (by rw [← String.lt_iff_toList_lt]; exact not_lt)

/-- `aggregate`: collects the union of all `schedule_details.days` values
into a set (modelled as dedup of the collected list), sorts it ascending as
Python `sorted` does, and wraps each day as `{"_id": day}`.  The pipeline
argument is ignored, as in the source. -/
def aggregate (c : MockCollection) (pipeline : List Query) : Option (List Doc) := do
  let dayVals ← collectDays c
  let ss ← asStrings dayVals
  pure ((@List.insertionSort String (fun a b => a ≤ b) decStrLe ss.dedup).map
    (fun day => [("_id", Value.str day)]))

/-- One `$push` step: `if field not in doc: doc[field] = []` then
`doc[field].append(value)` — appending to a non-list raises (`none`). -/
def pushField (doc : Doc) (field : String) (value : Value) : Option Doc :=
  let doc' := if (lookup? doc field).isSome then doc else dictSet doc field (.list [])
  match lookup? doc' field with
  | some (.list l) => some (dictSet doc' field (.list (l ++ [value])))
  | _ => none

/-- The `$push` loop over the field→value pairs of the update spec. -/
def pushAll (doc : Doc) : Cond → Option Doc
  | [] => some doc
  | (f, v) :: rest => do
    let doc' ← pushField doc f v
    pushAll doc' rest

/-- One `$pull` step: skip absent fields; `list.remove(value)` removes the
first occurrence and a `ValueError` for a missing value is swallowed;
`.remove` on a non-list raises (`none`). -/
def pullField (doc : Doc) (field : String) (value : Value) : Option Doc :=
  match lookup? doc field with
  | none => some doc
  | some (.list l) => some (dictSet doc field (.list (l.erase value)))
  | some _ => none

/-- The `$pull` loop over the field→value pairs of the update spec. -/
def pullAll (doc : Doc) : Cond → Option Doc
  | [] => some doc
  | (f, v) :: rest => do
    let doc' ← pullField doc f v
    pullAll doc' rest

/-- `update_one`: look up the target by `query.get("_id")`; when absent
report zero modifications and touch nothing; when present apply exactly one
of `$set` / `$push` / `$pull` — tested in that order — and report one
modification.  The returned pair is (new storage, `modified_count`). -/
def update_one (c : MockCollection) (query : Doc) (update : Query) :
    Option (MockCollection × Nat) :=
  match lookup? query "_id" with
  | none => some (c, 0)
  | some docId =>
    match lookup? c docId with
    | none => some (c, 0)
    | some doc =>
      match lookup? update "$set" with
      | some m => some (dictSet c docId (dictUpdate doc m), 1)
      | none =>
        match lookup? update "$push" with
        | some m => (pushAll doc m).map (fun d => (dictSet c docId d, 1))
        | none =>
          match lookup? update "$pull" with
          | some m => (pullAll doc m).map (fun d => (dictSet c docId d, 1))
          | none => some (c, 1)

end MockCollection

/-- Builds one activity-catalog entry; every entry of `initial_activities`
has exactly these payload fields in this order. -/
def mkActivity (description schedule : String) (days : List String)
    (startTime endTime : String) (maxParticipants : Int)
    (participants : List String) : Doc :=
  [("description", .str description),
   ("schedule", .str schedule),
   ("schedule_details", .obj
      [("days", .list (days.map .str)),
       ("start_time", .str startTime),
       ("end_time", .str endTime)]),
   ("max_participants", .int maxParticipants),
   ("participants", .list (participants.map .str))]

/-- The built-in activity catalog (`initial_activities` in the source), in
source order: activity name → payload document. -/
def initial_activities : List (String × Doc) :=
  [("Chess Club", mkActivity
      "Learn strategies and compete in chess tournaments"
      "Mondays and Fridays, 3:15 PM - 4:45 PM"
      ["Monday", "Friday"] "15:15" "16:45" 12
      ["michael@mergington.edu", "daniel@mergington.edu"]),
   ("Programming Class", mkActivity
      "Learn programming fundamentals and build software projects"
      "Tuesdays and Thursdays, 7:00 AM - 8:00 AM"
      ["Tuesday", "Thursday"] "07:00" "08:00" 20
      ["emma@mergington.edu", "sophia@mergington.edu"]),
   ("Morning Fitness", mkActivity
      "Early morning physical training and exercises"
      "Mondays, Wednesdays, Fridays, 6:30 AM - 7:45 AM"
      ["Monday", "Wednesday", "Friday"] "06:30" "07:45" 30
      ["john@mergington.edu", "olivia@mergington.edu"]),
   ("Soccer Team", mkActivity
      "Join the school soccer team and compete in matches"
      "Tuesdays and Thursdays, 3:30 PM - 5:30 PM"
      ["Tuesday", "Thursday"] "15:30" "17:30" 22
      ["liam@mergington.edu", "noah@mergington.edu"]),
   ("Basketball Team", mkActivity
      "Practice and compete in basketball tournaments"
      "Wednesdays and Fridays, 3:15 PM - 5:00 PM"
      ["Wednesday", "Friday"] "15:15" "17:00" 15
      ["ava@mergington.edu", "mia@mergington.edu"]),
   ("Art Club", mkActivity
      "Explore various art techniques and create masterpieces"
      "Thursdays, 3:15 PM - 5:00 PM"
      ["Thursday"] "15:15" "17:00" 15
      ["amelia@mergington.edu", "harper@mergington.edu"]),
   ("Drama Club", mkActivity
      "Act, direct, and produce plays and performances"
      "Mondays and Wednesdays, 3:30 PM - 5:30 PM"
      ["Monday", "Wednesday"] "15:30" "17:30" 20
      ["ella@mergington.edu", "scarlett@mergington.edu"]),
   ("Math Club", mkActivity
      "Solve challenging problems and prepare for math competitions"
      "Tuesdays, 7:15 AM - 8:00 AM"
      ["Tuesday"] "07:15" "08:00" 10
      ["james@mergington.edu", "benjamin@mergington.edu"]),
   ("Debate Team", mkActivity
      "Develop public speaking and argumentation skills"
      "Fridays, 3:30 PM - 5:30 PM"
      ["Friday"] "15:30" "17:30" 12
      ["charlotte@mergington.edu", "amelia@mergington.edu"]),
   ("Weekend Robotics Workshop", mkActivity
      "Build and program robots in our state-of-the-art workshop"
      "Saturdays, 10:00 AM - 2:00 PM"
      ["Saturday"] "10:00" "14:00" 15
      ["ethan@mergington.edu", "oliver@mergington.edu"]),
   ("Science Olympiad", mkActivity
      "Weekend science competition preparation for regional and state events"
      "Saturdays, 1:00 PM - 4:00 PM"
      ["Saturday"] "13:00" "16:00" 18
      ["isabella@mergington.edu", "lucas@mergington.edu"]),
   ("Sunday Chess Tournament", mkActivity
      "Weekly tournament for serious chess players with rankings"
      "Sundays, 2:00 PM - 5:00 PM"
      ["Sunday"] "14:00" "17:00" 16
      ["william@mergington.edu", "jacob@mergington.edu"]),
   ("Manga Maniacs", mkActivity
      "Explore the fantastic stories of the most interesting characters from Japanese Manga (graphic novels)."
      "Tuesdays, 7:00 PM - 8:30 PM"
      ["Tuesday"] "19:00" "20:30" 15
      [])]

/-- The built-in teacher accounts (`initial_teachers` in the source).  The
password hasher (argon2, an external library) is abstracted as the function
parameter `hash_password`; the source applies it to each literal plaintext. -/
def initial_teachers (hash_password : String → String) : List Doc :=
  [[("username", .str "mrodriguez"),
    ("display_name", .str "Ms. Rodriguez"),
    ("password", .str (hash_password "art123")),
    ("role", .str "teacher")],
   [("username", .str "mchen"),
    ("display_name", .str "Mr. Chen"),
    ("password", .str (hash_password "chess456")),
    ("role", .str "teacher")],
   [("username", .str "principal"),
    ("display_name", .str "Principal Martinez"),
    ("password", .str (hash_password "admin789")),
    ("role", .str "admin")]]

/-- Inserts a list of seed documents one by one (the seeding loops of
`init_database`). -/
def insertAll (c : MockCollection) : List Doc → Option MockCollection
  | [] => some c
  | d :: rest => do
    let c' ← MockCollection.insert_one c d
    insertAll c' rest

/-- `{"_id": name, **details}` for an activity-catalog entry: `details`
never carries an `"_id"` key, so the identity comes first. -/
def activitySeedDoc (p : String × Doc) : Doc :=
  ("_id", Value.str p.1) :: p.2

/-- `{"_id": teacher["username"], **teacher}`; the subscript raises
(`none`) when `username` is absent. -/
def teacherSeedDoc (t : Doc) : Option Doc :=
  (lookup? t "username").map (fun u => ("_id", u) :: t)

/-- The teacher seeding loop of `init_database`. -/
def insertTeachers (c : MockCollection) : List Doc → Option MockCollection
  | [] => some c
  | t :: rest => do
    let d ← teacherSeedDoc t
    let c' ← MockCollection.insert_one c d
    insertTeachers c' rest

/-- `init_database`: seed each collection from its fixed catalog exactly
when its document count is zero. -/
def init_database (hash_password : String → String)
    (acts teach : MockCollection) : Option (MockCollection × MockCollection) := do
  let acts' ←
    if MockCollection.count_documents acts [] = 0 then
      insertAll acts (initial_activities.map activitySeedDoc)
    else pure acts
  let teach' ←
    if MockCollection.count_documents teach [] = 0 then
      insertTeachers teach (initial_teachers hash_password)
    else pure teach
  pure (acts', teach')

/-! ### Dictionary lemmas -/

theorem lookup?_dictSet_self {κ α : Type} [DecidableEq κ] (m : List (κ × α)) (k : κ) (v : α) :
    lookup? (dictSet m k v) k = some v := by
  induction m with
  | nil => simp [dictSet, lookup?]
  | cons p rest ih =>
    by_cases h : p.1 = k
    · simp [dictSet, lookup?, h]
    · simp [dictSet, lookup?, h, ih]

theorem lookup?_dictSet_ne {κ α : Type} [DecidableEq κ] (m : List (κ × α)) (k k' : κ) (v : α)
    (h : k' ≠ k) : lookup? (dictSet m k v) k' = lookup? m k' :=  by
  have hkk' : ¬ k = k' := fun he => h he.symm
  induction m with
  | nil => simp [dictSet, lookup?, hkk']
  | cons p rest ih =>
    by_cases hp : p.1 = k
    · simp [dictSet, hp, lookup?, hkk']
    · simp only [dictSet, if_neg hp]
      by_cases hp' : p.1 = k'
      · simp [lookup?, hp']
      · simp [lookup?, hp', ih]

theorem dictSet_dictSet_same {κ α : Type} [DecidableEq κ] (m : List (κ × α)) (k : κ) (v w : α) :
    dictSet (dictSet m k v) k w = dictSet m k w := by
  induction m with
  | nil => simp [dictSet]
  | cons p rest ih =>
    by_cases h : p.1 = k
    · simp [dictSet, h]
    · simp [dictSet, h, ih]

theorem dictSet_eq_self {κ α : Type} [DecidableEq κ] (m : List (κ × α)) (k : κ) (v : α)
    (h : lookup? m k = some v) : dictSet m k v = m := by
  induction m with
  | nil => simp [lookup?] at h
  | cons p rest ih =>
    by_cases hp : p.1 = k
    · simp only [lookup?, if_pos hp] at h
      have hv : p.2 = v := by simpa using h
      simp only [dictSet, if_pos hp]
      rw [← hp, ← hv]
    · simp only [lookup?, if_neg hp] at h
      simp [dictSet, hp, ih h]

theorem length_dictSet_of_mem {κ α : Type} [DecidableEq κ] (m : List (κ × α)) (k : κ) (v : α)
    (h : (lookup? m k).isSome) : (dictSet m k v).length = m.length := by
  induction m with
  | nil => simp [lookup?] at h
  | cons p rest ih =>
    by_cases hp : p.1 = k
    · simp [dictSet, hp]
    · simp only [lookup?, if_neg hp] at h
      simp [dictSet, hp, ih h]

theorem length_dictSet_ge {κ α : Type} [DecidableEq κ] (m : List (κ × α)) (k : κ) (v : α) :
    m.length ≤ (dictSet m k v).length := by
  induction m with
  | nil => simp [dictSet]
  | cons p rest ih =>
    by_cases hp : p.1 = k
    · simp [dictSet, hp]
    · simpa [dictSet, hp] using ih

theorem length_dictSet_pos {κ α : Type} [DecidableEq κ] (m : List (κ × α)) (k : κ) (v : α) :
    0 < (dictSet m k v).length := by
  cases m with
  | nil => simp [dictSet]
  | cons p rest =>
    by_cases hp : p.1 = k <;> simp [dictSet, hp]

/-! ### Specification-side notions -/

/-- The activities collection as seeded from the fixed catalog — the result
of the bootstrap loader on an empty collection. -/
def seededActivities : MockCollection :=
  initial_activities.map (fun p => (Value.str p.1, activitySeedDoc p))

/-- Queries of the shape claim C1 quantifies over: every condition uses one
of the three recognized dotted field paths and carries that path's
recognized operator with a well-typed operand. -/
def RecognizedQuery (q : Query) : Prop :=
  ∀ pc ∈ q,
    (pc.1 = "schedule_details.days" ∧
      ∃ ts, lookup? pc.2 "$in" = some (Value.list ts)) ∨
    (pc.1 = "schedule_details.start_time" ∧
      ∃ b, lookup? pc.2 "$gte" = some (Value.str b)) ∨
    (pc.1 = "schedule_details.end_time" ∧
      ∃ b, lookup? pc.2 "$lte" = some (Value.str b))

/-- Documents whose schedule fields carry the schema's types: `days` a
list, `start_time` and `end_time` strings (after the code's defaults). -/
def ScheduleWF (doc : Doc) : Prop :=
  (∃ ds, MockCollection.docDaysVal doc = Value.list ds) ∧
  (∃ s, MockCollection.docStartVal doc = Value.str s) ∧
  (∃ s, MockCollection.docEndVal doc = Value.str s)

/-- One condition of the query, as the specification words it: a
`schedule_details.days` condition with `$in` matches iff the document's
days sequence has non-empty intersection with the target list; a
`schedule_details.start_time` condition with `$gte` matches iff the
document's start time (default `"00:00"`) is lexically ≥ the bound; a
`schedule_details.end_time` condition with `$lte` matches iff the
document's end time (default `"23:59"`) is lexically ≤ the bound. -/
def SpecCondMatch (doc : Doc) (path : String) (cond : Cond) : Prop :=
  if path = "schedule_details.days" then
    ∃ ts, lookup? cond "$in" = some (Value.list ts) ∧
      ∃ ds, MockCollection.docDaysVal doc = Value.list ds ∧ ∃ x ∈ ds, x ∈ ts
  else if path = "schedule_details.start_time" then
    ∃ b, lookup? cond "$gte" = some (Value.str b) ∧
      ∃ s, MockCollection.docStartVal doc = Value.str s ∧ b ≤ s
  else if path = "schedule_details.end_time" then
    ∃ b, lookup? cond "$lte" = some (Value.str b) ∧
      ∃ s, MockCollection.docEndVal doc = Value.str s ∧ s ≤ b
  else True

/-- A condition `find` silently skips: an unrecognized field path, or a
recognized path whose recognized operator is absent from the condition. -/
def IgnoredCond (path : String) (cond : Cond) : Prop :=
  (path ≠ "schedule_details.days" ∧ path ≠ "schedule_details.start_time" ∧
    path ≠ "schedule_details.end_time") ∨
  (path = "schedule_details.days" ∧ lookup? cond "$in" = none) ∨
  (path = "schedule_details.start_time" ∧ lookup? cond "$gte" = none) ∨
  (path = "schedule_details.end_time" ∧ lookup? cond "$lte" = none)

/-- A field into which `$push`/`$pull` can operate without raising: absent
from the document or list-valued. -/
def okField (doc : Doc) (f : String) : Prop :=
  lookup? doc f = none ∨ ∃ l, lookup? doc f = some (Value.list l)

/-- Update specs on which `update_one` completes without a dynamic type
error on `doc`: the operator actually applied only pushes into / pulls from
absent-or-list fields (`$set`, and the no-operator case, always complete). -/
def UpdateWF (doc : Doc) (u : Query) : Prop :=
  match lookup? u "$set" with
  | some _ => True
  | none =>
    match lookup? u "$push" with
    | some m => ∀ p ∈ m, okField doc p.1
    | none =>
      match lookup? u "$pull" with
      | some m => ∀ p ∈ m, okField doc p.1
      | none => True

/-- The two documents of testable property 3 (their schedule parts) and
its query. -/
def propThreeDocA : Doc :=
  [("schedule_details", .obj
      [("days", .list [.str "Monday", .str "Friday"]),
       ("start_time", .str "15:15"),
       ("end_time", .str "16:45")])]

/-- The second document of testable property 3. -/
def propThreeDocB : Doc :=
  [("schedule_details", .obj
      [("days", .list [.str "Tuesday"]),
       ("start_time", .str "07:00"),
       ("end_time", .str "08:00")])]

/-- The two-document collection of testable property 3. -/
def propThreeColl : MockCollection :=
  [(.str "A", propThreeDocA), (.str "B", propThreeDocB)]

/-- The query of testable property 3:
`{days: {$in: ["Friday"]}, start_time: {$gte: "12:00"}}`. -/
def propThreeQuery : Query :=
  [("schedule_details.days", [("$in", .list [.str "Friday"])]),
   ("schedule_details.start_time", [("$gte", .str "12:00")])]

/-! ### Claims about `find_one`, `find` with empty query, `insert_one` -/

/-- **C7.** For every collection state, the fallback `find` called with an
absent or empty query returns all documents of the collection, in insertion
order, and every returned document has the identity field merged back in,
with value equal to the key under which the document is stored. -/
theorem find_absent_or_empty_query_returns_all (c : MockCollection) :
    MockCollection.find c none =
      some (c.map (fun p => MockCollection.withId p.1 p.2)) ∧
    MockCollection.find c (some []) =
      some (c.map (fun p => MockCollection.withId p.1 p.2)) ∧
    ∀ key doc, (key, doc) ∈ c →
      lookup? (MockCollection.withId key doc) "_id" = some key := by
  refine ⟨rfl, rfl, fun key doc _ => ?_⟩
  exact lookup?_dictSet_self doc "_id" key

/-- Witness for C7 at a one-document collection. -/
theorem find_absent_or_empty_query_returns_all_witness :
    MockCollection.find [(Value.str "A", [("x", Value.int 1)])] none =
      some [[("x", Value.int 1), ("_id", Value.str "A")]] ∧
    lookup? (MockCollection.withId (Value.str "A") [("x", Value.int 1)]) "_id" =
      some (Value.str "A") := by
  refine ⟨(find_absent_or_empty_query_returns_all _).1.trans (by decide), ?_⟩
  exact (find_absent_or_empty_query_returns_all
    [(Value.str "A", [("x", Value.int 1)])]).2.2 _ _ (by decide)

/-- **C9.** For every collection state, including a non-empty one,
`find_one` with an empty (falsy) query returns no document, whereas
`find_one` with a query carrying the identity field returns precisely the
stored document for that identity (absent otherwise). -/
theorem find_one_empty_and_by_id (c : MockCollection) :
    MockCollection.find_one c [] = none ∧
    ∀ q docId, lookup? q "_id" = some docId →
      MockCollection.find_one c q = lookup? c docId := by
  refine ⟨rfl, fun q docId hq => ?_⟩
  have hne : q ≠ [] := by
    intro h
    subst h
    simp [lookup?] at hq
  simp [MockCollection.find_one, hq, List.isEmpty_eq_false.mpr hne]

/-- Witness for C9 on a non-empty collection. -/
theorem find_one_empty_and_by_id_witness :
    MockCollection.find_one [(Value.str "A", [("x", Value.int 1)])] [] = none ∧
    MockCollection.find_one [(Value.str "A", [("x", Value.int 1)])]
      [("_id", Value.str "A")] = some [("x", Value.int 1)] ∧
    MockCollection.find_one [(Value.str "A", [("x", Value.int 1)])]
      [("_id", Value.str "B")] = none := by
  refine ⟨(find_one_empty_and_by_id _).1, ?_, ?_⟩
  · exact ((find_one_empty_and_by_id _).2 [("_id", Value.str "A")]
      (Value.str "A") (by decide)).trans (by decide)
  · exact ((find_one_empty_and_by_id _).2 [("_id", Value.str "B")]
      (Value.str "B") (by decide)).trans (by decide)

/-- **C8.** `insert_one` with a document whose identity already exists
raises no error and silently overwrites: afterwards the stored document for
that identity is the newly inserted one, and the document count is
unchanged. -/
theorem insert_one_duplicate_overwrites (c : MockCollection) (docId : Value)
    (doc newDoc : Doc) (hold : lookup? c docId = some doc)
    (hnew : lookup? newDoc "_id" = some docId) :
    MockCollection.insert_one c newDoc = some (dictSet c docId newDoc) ∧
    lookup? (dictSet c docId newDoc) docId = some newDoc ∧
    MockCollection.count_documents (dictSet c docId newDoc) [] =
      MockCollection.count_documents c [] := by
  refine ⟨?_, lookup?_dictSet_self c docId newDoc,
    length_dictSet_of_mem c docId newDoc (by simp [hold])⟩
  simp [MockCollection.insert_one, hnew]

/-- Witness for C8: overwriting the single stored document. -/
theorem insert_one_duplicate_overwrites_witness :
    MockCollection.insert_one [(Value.str "A", [("_id", Value.str "A"), ("x", Value.int 1)])]
      [("_id", Value.str "A"), ("x", Value.int 2)] =
      some [(Value.str "A", [("_id", Value.str "A"), ("x", Value.int 2)])] ∧
    MockCollection.count_documents
      [(Value.str "A", [("_id", Value.str "A"), ("x", Value.int 2)])] [] = 1 := by
  constructor
  · exact (insert_one_duplicate_overwrites _ (Value.str "A")
      [("_id", Value.str "A"), ("x", Value.int 1)]
      [("_id", Value.str "A"), ("x", Value.int 2)]
      (by decide) (by decide)).1.trans (by decide)
  · decide

/-! ### Push/pull success lemmas -/

theorem pushField_ok (doc : Doc) (f : String) (v : Value) (h : okField doc f) :
    ∃ d', MockCollection.pushField doc f v = some d' ∧
      ∀ g, okField doc g → okField d' g := by
  rcases h with h | ⟨l, h⟩
  · refine ⟨dictSet doc f (.list [v]), ?_, ?_⟩
    · simp only [MockCollection.pushField, h, Option.isSome_none, Bool.false_eq_true,
        if_false, lookup?_dictSet_self, dictSet_dictSet_same, List.nil_append]
    · intro g hg
      by_cases hgf : g = f
      · subst hgf
        exact Or.inr ⟨[v], lookup?_dictSet_self doc g (.list [v])⟩
      · rcases hg with hg | ⟨l', hg⟩
        · exact Or.inl ((lookup?_dictSet_ne doc f g (.list [v]) hgf).trans hg)
        · exact Or.inr ⟨l', (lookup?_dictSet_ne doc f g (.list [v]) hgf).trans hg⟩
  · refine ⟨dictSet doc f (.list (l ++ [v])), ?_, ?_⟩
    · simp only [MockCollection.pushField, h, Option.isSome_some, if_true]
    · intro g hg
      by_cases hgf : g = f
      · subst hgf
        exact Or.inr ⟨l ++ [v], lookup?_dictSet_self doc g (.list (l ++ [v]))⟩
      · rcases hg with hg | ⟨l', hg⟩
        · exact Or.inl ((lookup?_dictSet_ne doc f g _ hgf).trans hg)
        · exact Or.inr ⟨l', (lookup?_dictSet_ne doc f g _ hgf).trans hg⟩

theorem pullField_ok (doc : Doc) (f : String) (v : Value) (h : okField doc f) :
    ∃ d', MockCollection.pullField doc f v = some d' ∧
      ∀ g, okField doc g → okField d' g := by
  rcases h with h | ⟨l, h⟩
  · exact ⟨doc, by simp [MockCollection.pullField, h], fun g hg => hg⟩
  · refine ⟨dictSet doc f (.list (l.erase v)), ?_, ?_⟩
    · simp [MockCollection.pullField, h]
    · intro g hg
      by_cases hgf : g = f
      · subst hgf
        exact Or.inr ⟨l.erase v, lookup?_dictSet_self doc g _⟩
      · rcases hg with hg | ⟨l', hg⟩
        · exact Or.inl ((lookup?_dictSet_ne doc f g _ hgf).trans hg)
        · exact Or.inr ⟨l', (lookup?_dictSet_ne doc f g _ hgf).trans hg⟩

theorem pushAll_ok (m : Cond) : ∀ doc : Doc, (∀ p ∈ m, okField doc p.1) →
    ∃ d', MockCollection.pushAll doc m = some d' := by
  induction m with
  | nil => exact fun doc _ => ⟨doc, rfl⟩
  | cons p rest ih =>
    intro doc h
    obtain ⟨d₁, hd₁, hpres⟩ := pushField_ok doc p.1 p.2 (h p (List.mem_cons_self p rest))
    obtain ⟨d', hd'⟩ := ih d₁ (fun p' hp' => hpres p'.1 (h p' (List.mem_cons_of_mem p hp')))
    exact ⟨d', by simp [MockCollection.pushAll, hd₁, hd']⟩

theorem pullAll_ok (m : Cond) : ∀ doc : Doc, (∀ p ∈ m, okField doc p.1) →
    ∃ d', MockCollection.pullAll doc m = some d' := by
  induction m with
  | nil => exact fun doc _ => ⟨doc, rfl⟩
  | cons p rest ih =>
    intro doc h
    obtain ⟨d₁, hd₁, hpres⟩ := pullField_ok doc p.1 p.2 (h p (List.mem_cons_self p rest))
    obtain ⟨d', hd'⟩ := ih d₁ (fun p' hp' => hpres p'.1 (h p' (List.mem_cons_of_mem p hp')))
    exact ⟨d', by simp [MockCollection.pullAll, hd₁, hd']⟩

/-! ### Claims about `update_one` -/

/-- **C3.** With an identity that is not present, `update_one` leaves the
collection unchanged and reports zero modifications, whatever the update
spec; with a present identity every result it returns carries
`modified_count` 1, and on well-formed update specs it does return one. -/
theorem update_one_modified_counts (c : MockCollection) (q : Doc) (u : Query)
    (docId : Value) (hq : lookup? q "_id" = some docId) :
    (lookup? c docId = none → MockCollection.update_one c q u = some (c, 0)) ∧
    (∀ r, MockCollection.update_one c q u = some r →
      (lookup? c docId).isSome → r.2 = 1) ∧
    (∀ doc, lookup? c docId = some doc → UpdateWF doc u →
      ∃ c', MockCollection.update_one c q u = some (c', 1)) := by
  refine ⟨?_, ?_, ?_⟩
  · intro h
    simp [MockCollection.update_one, hq, h]
  · intro r hr hsome
    obtain ⟨doc, hdoc⟩ := Option.isSome_iff_exists.mp hsome
    rcases h1 : lookup? u "$set" with _ | m
    · rcases h2 : lookup? u "$push" with _ | m
      · rcases h3 : lookup? u "$pull" with _ | m
        · simp only [MockCollection.update_one, hq, hdoc, h1, h2, h3] at hr
          cases hr
          rfl
        · simp only [MockCollection.update_one, hq, hdoc, h1, h2, h3] at hr
          obtain ⟨d, _, hd⟩ := Option.map_eq_some'.mp hr
          rw [← hd]
      · simp only [MockCollection.update_one, hq, hdoc, h1, h2] at hr
        obtain ⟨d, _, hd⟩ := Option.map_eq_some'.mp hr
        rw [← hd]
    · simp only [MockCollection.update_one, hq, hdoc, h1] at hr
      cases hr
      rfl
  · intro doc hdoc hwf
    rcases h1 : lookup? u "$set" with _ | m
    · rcases h2 : lookup? u "$push" with _ | m
      · rcases h3 : lookup? u "$pull" with _ | m
        · exact ⟨c, by simp [MockCollection.update_one, hq, hdoc, h1, h2, h3]⟩
        · have hwf' : ∀ p ∈ m, okField doc p.1 := by
            simpa [UpdateWF, h1, h2, h3] using hwf
          obtain ⟨d', hd'⟩ := pullAll_ok m doc hwf'
          exact ⟨dictSet c docId d',
            by simp [MockCollection.update_one, hq, hdoc, h1, h2, h3, hd']⟩
      · have hwf' : ∀ p ∈ m, okField doc p.1 := by
          simpa [UpdateWF, h1, h2] using hwf
        obtain ⟨d', hd'⟩ := pushAll_ok m doc hwf'
        exact ⟨dictSet c docId d',
          by simp [MockCollection.update_one, hq, hdoc, h1, h2, hd']⟩
    · exact ⟨dictSet c docId (dictUpdate doc m),
        by simp [MockCollection.update_one, hq, hdoc, h1]⟩

/-- Witness for C3: a miss on `"nonexistent"` reports 0 and changes nothing;
a `$set` hit reports 1. -/
theorem update_one_modified_counts_witness :
    MockCollection.update_one [(Value.str "A", [("x", Value.int 1)])]
      [("_id", Value.str "nonexistent")] [("$set", [("x", Value.int 2)])] =
      some ([(Value.str "A", [("x", Value.int 1)])], 0) ∧
    ∃ c', MockCollection.update_one [(Value.str "A", [("x", Value.int 1)])]
      [("_id", Value.str "A")] [("$set", [("x", Value.int 2)])] = some (c', 1) := by
  constructor
  · exact (update_one_modified_counts _ _ _ (Value.str "nonexistent")
      (by decide)).1 (by decide)
  · exact (update_one_modified_counts _ _ _ (Value.str "A") (by decide)).2.2
      [("x", Value.int 1)] (by decide) (by simp [UpdateWF, lookup?])

/-- **C10.** When an update spec for an existing identity names several of
`$set`/`$push`/`$pull`, exactly one is applied, with priority `$set` over
`$push` over `$pull` (the call behaves as if the spec held only the chosen
operator); with none of the three the document is untouched while
`modified_count` 1 is still reported. -/
theorem update_one_operator_priority (c : MockCollection) (q : Doc) (u : Query) :
    (∀ m, lookup? u "$set" = some m →
      MockCollection.update_one c q u =
        MockCollection.update_one c q [("$set", m)]) ∧
    (∀ m, lookup? u "$set" = none → lookup? u "$push" = some m →
      MockCollection.update_one c q u =
        MockCollection.update_one c q [("$push", m)]) ∧
    (∀ m, lookup? u "$set" = none → lookup? u "$push" = none →
      lookup? u "$pull" = some m →
      MockCollection.update_one c q u =
        MockCollection.update_one c q [("$pull", m)]) ∧
    (lookup? u "$set" = none → lookup? u "$push" = none →
      lookup? u "$pull" = none →
      ∀ docId doc, lookup? q "_id" = some docId → lookup? c docId = some doc →
        MockCollection.update_one c q u = some (c, 1)) := by
  refine ⟨?_, ?_, ?_, ?_⟩
  · intro m h1
    rcases hq : lookup? q "_id" with _ | docId
    · simp [MockCollection.update_one, hq]
    · rcases hdoc : lookup? c docId with _ | doc
      · simp [MockCollection.update_one, hq, hdoc]
      · simp [MockCollection.update_one, hq, hdoc, h1, lookup?]
  · intro m h1 h2
    rcases hq : lookup? q "_id" with _ | docId
    · simp [MockCollection.update_one, hq]
    · rcases hdoc : lookup? c docId with _ | doc
      · simp [MockCollection.update_one, hq, hdoc]
      · simp [MockCollection.update_one, hq, hdoc, h1, h2, lookup?]
  · intro m h1 h2 h3
    rcases hq : lookup? q "_id" with _ | docId
    · simp [MockCollection.update_one, hq]
    · rcases hdoc : lookup? c docId with _ | doc
      · simp [MockCollection.update_one, hq, hdoc]
      · simp [MockCollection.update_one, hq, hdoc, h1, h2, h3, lookup?]
  · intro h1 h2 h3 docId doc hq hdoc
    simp [MockCollection.update_one, hq, hdoc, h1, h2, h3]

/-- Witness for C10: a spec naming all three operators behaves as `$set`
alone; the empty spec reports 1 and changes nothing. -/
theorem update_one_operator_priority_witness :
    MockCollection.update_one [(Value.str "A", [("x", Value.int 1)])]
      [("_id", Value.str "A")]
      [("$set", [("x", Value.int 5)]), ("$push", [("x", Value.int 6)]),
       ("$pull", [("x", Value.int 5)])] =
      MockCollection.update_one [(Value.str "A", [("x", Value.int 1)])]
        [("_id", Value.str "A")] [("$set", [("x", Value.int 5)])] ∧
    MockCollection.update_one [(Value.str "A", [("x", Value.int 1)])]
      [("_id", Value.str "A")] [] =
      some ([(Value.str "A", [("x", Value.int 1)])], 1) := by
  constructor
  · exact (update_one_operator_priority _ _ _).1 [("x", Value.int 5)] (by decide)
  · exact (update_one_operator_priority _ _ _).2.2.2 (by decide) (by decide)
      (by decide) (Value.str "A") [("x", Value.int 1)] (by decide) (by decide)

/-! ### Skipped conditions (C4) -/

theorem condHolds_of_ignored (path : String) (cond : Cond)
    (h : IgnoredCond path cond) (doc : Doc) :
    MockCollection.condHolds doc path cond = some true := by
  rcases h with ⟨h1, h2, h3⟩ | ⟨h1, h2⟩ | ⟨h1, h2⟩ | ⟨h1, h2⟩ <;>
    simp [MockCollection.condHolds, h1, h2]
  · simp [h3]

theorem docMatches_skip (doc : Doc) (path : String) (cond : Cond)
    (hc : MockCollection.condHolds doc path cond = some true) :
    ∀ q₁ q₂ : Query, MockCollection.docMatches doc (q₁ ++ (path, cond) :: q₂) =
      MockCollection.docMatches doc (q₁ ++ q₂) := by
  intro q₁
  induction q₁ with
  | nil =>
    intro q₂
    simp [MockCollection.docMatches, hc]
  | cons pc rest ih =>
    intro q₂
    simp only [List.cons_append, MockCollection.docMatches]
    rcases MockCollection.condHolds doc pc.1 pc.2 with _ | b
    · rfl
    · cases b
      · rfl
      · exact ih q₂

theorem findFiltered_congr (q q' : Query)
    (h : ∀ doc : Doc, MockCollection.docMatches doc q =
      MockCollection.docMatches doc q') :
    ∀ c : MockCollection, MockCollection.findFiltered q c =
      MockCollection.findFiltered q' c := by
  intro c
  induction c with
  | nil => rfl
  | cons p rest ih =>
    simp only [MockCollection.findFiltered, h p.2, ih]

theorem findFiltered_all_match (q : Query)
    (h : ∀ doc : Doc, MockCollection.docMatches doc q = some true) :
    ∀ c : MockCollection, MockCollection.findFiltered q c =
      some (MockCollection.allWithId c) := by
  intro c
  induction c with
  | nil => rfl
  | cons p rest ih =>
    simp [MockCollection.findFiltered, h p.2, ih, MockCollection.allWithId]

/-- **C4.** A condition whose field path is not one of the three recognized
dotted paths, or whose operator is not the one recognized for that path, is
silently ignored: it matches every document, and removing it from any query
leaves the result of `find` unchanged (in particular it neither excludes a
document nor raises). -/
theorem find_ignores_unrecognized (path : String) (cond : Cond)
    (h : IgnoredCond path cond) :
    (∀ doc : Doc, MockCollection.condHolds doc path cond = some true) ∧
    (∀ (c : MockCollection) (q₁ q₂ : Query),
      MockCollection.find c (some (q₁ ++ (path, cond) :: q₂)) =
        MockCollection.find c (some (q₁ ++ q₂))) := by
  refine ⟨condHolds_of_ignored path cond h, ?_⟩
  intro c q₁ q₂
  have hskip := fun doc => docMatches_skip doc path cond
    (condHolds_of_ignored path cond h doc) q₁ q₂
  have hne : ¬ (q₁ ++ (path, cond) :: q₂).isEmpty = true := by
    cases q₁ <;> simp
  by_cases hq : (q₁ ++ q₂).isEmpty = true
  · obtain ⟨hq₁, hq₂⟩ : q₁ = [] ∧ q₂ = [] := by
      simpa using List.isEmpty_iff.mp hq
    subst hq₁; subst hq₂
    simp only [List.nil_append, MockCollection.find, List.isEmpty_cons,
      List.isEmpty_nil, if_true, Bool.false_eq_true, if_false]
    refine findFiltered_all_match _ (fun doc => ?_) c
    simpa using hskip doc
  · simp only [MockCollection.find, if_neg hne, if_neg hq]
    exact findFiltered_congr _ _ hskip c

/-- Witness for C4: an unknown path and a `days` condition without `$in`
are both skipped. -/
theorem find_ignores_unrecognized_witness :
    MockCollection.find propThreeColl
      (some [("max_participants", [("$gte", Value.int 0)])]) =
      MockCollection.find propThreeColl (some []) ∧
    MockCollection.find propThreeColl
      (some [("schedule_details.days", [("$gte", Value.str "x")])]) =
      MockCollection.find propThreeColl (some []) := by
  constructor
  · exact (find_ignores_unrecognized "max_participants" [("$gte", Value.int 0)]
      (by simp [IgnoredCond])).2 propThreeColl [] []
  · exact (find_ignores_unrecognized "schedule_details.days"
      [("$gte", Value.str "x")]
      (by simp [IgnoredCond, lookup?])).2 propThreeColl [] []

/-! ### Push/pull round trip (C2) -/

/-- **C2 counterexample.** When the pushed value already occurs in
`participants`, `$push` then `$pull` does not restore the original
sequence: `$pull` removes the *first* occurrence, so the value migrates to
the end (`["a","b"]` becomes `["b","a"]`). -/
theorem push_pull_roundtrip_cex :
    MockCollection.update_one
      [(Value.str "A", [("participants", Value.list [Value.str "a", Value.str "b"])])]
      [("_id", Value.str "A")] [("$push", [("participants", Value.str "a")])] =
      some ([(Value.str "A",
        [("participants", Value.list [Value.str "a", Value.str "b", Value.str "a"])])], 1) ∧
    MockCollection.update_one
      [(Value.str "A",
        [("participants", Value.list [Value.str "a", Value.str "b", Value.str "a"])])]
      [("_id", Value.str "A")] [("$pull", [("participants", Value.str "a")])] =
      some ([(Value.str "A",
        [("participants", Value.list [Value.str "b", Value.str "a"])])], 1) ∧
    ([(Value.str "A", [("participants", Value.list [Value.str "b", Value.str "a"])])] :
        MockCollection) ≠
      [(Value.str "A", [("participants", Value.list [Value.str "a", Value.str "b"])])] := by
  exact ⟨by decide, by decide, by decide⟩

/-- **C2 (amended).** For every document stored under `docId` whose
`participants` field holds a sequence not already containing `v`, pushing
`v` onto `participants` and then pulling it restores the collection exactly
(in particular the original `participants` sequence, order preserved). -/
theorem push_pull_roundtrip (c : MockCollection) (docId v : Value) (doc : Doc)
    (l : List Value) (hdoc : lookup? c docId = some doc)
    (hl : lookup? doc "participants" = some (Value.list l)) (hv : v ∉ l) :
    ∃ c₁, MockCollection.update_one c [("_id", docId)]
        [("$push", [("participants", v)])] = some (c₁, 1) ∧
      MockCollection.update_one c₁ [("_id", docId)]
        [("$pull", [("participants", v)])] = some (c, 1) := by
  have herase : (l ++ [v]).erase v = l := by
    rw [List.erase_append_right _ hv, List.erase_cons_head, List.append_nil]
  refine ⟨dictSet c docId (dictSet doc "participants" (Value.list (l ++ [v]))),
    ?_, ?_⟩
  · simp [MockCollection.update_one, lookup?, hdoc, MockCollection.pushAll,
      MockCollection.pushField, hl]
  · have hc₁ : lookup? (dictSet c docId
        (dictSet doc "participants" (Value.list (l ++ [v])))) docId =
        some (dictSet doc "participants" (Value.list (l ++ [v]))) :=
      lookup?_dictSet_self ..
    have hd₁ : lookup? (dictSet doc "participants" (Value.list (l ++ [v])))
        "participants" = some (Value.list (l ++ [v])) :=
      lookup?_dictSet_self ..
    have hback : dictSet (dictSet doc "participants" (Value.list (l ++ [v])))
        "participants" (Value.list l) = doc := by
      rw [dictSet_dictSet_same]
      exact dictSet_eq_self doc "participants" (Value.list l) hl
    have hcback : dictSet (dictSet c docId
        (dictSet doc "participants" (Value.list (l ++ [v])))) docId doc = c := by
      rw [dictSet_dictSet_same]
      exact dictSet_eq_self c docId doc hdoc
    simp [MockCollection.update_one, lookup?, hc₁, MockCollection.pullAll,
      MockCollection.pullField, hd₁, herase, hback, hcback]

/-- Witness for the amended C2 on a one-document collection. -/
theorem push_pull_roundtrip_witness :
    ∃ c₁, MockCollection.update_one
        [(Value.str "A", [("participants", Value.list [Value.str "b"])])]
        [("_id", Value.str "A")] [("$push", [("participants", Value.str "a")])] =
        some (c₁, 1) ∧
      MockCollection.update_one c₁ [("_id", Value.str "A")]
        [("$pull", [("participants", Value.str "a")])] =
        some ([(Value.str "A", [("participants", Value.list [Value.str "b"])])], 1) :=
  push_pull_roundtrip
    [(Value.str "A", [("participants", Value.list [Value.str "b"])])]
    (Value.str "A") (Value.str "a")
    [("participants", Value.list [Value.str "b"])] [Value.str "b"]
    (by decide) (by decide) (by decide)

/-! ### Bootstrap idempotence (C6) -/

theorem insert_one_length (c c' : MockCollection) (d : Doc)
    (h : MockCollection.insert_one c d = some c') :
    c.length ≤ c'.length ∧ 0 < c'.length := by
  rcases hl : lookup? d "_id" with _ | docId
  · simp [MockCollection.insert_one, hl] at h
  · simp only [MockCollection.insert_one, hl] at h
    cases h
    exact ⟨length_dictSet_ge .., length_dictSet_pos ..⟩

theorem insertAll_length (ds : List Doc) : ∀ c c' : MockCollection,
    insertAll c ds = some c' → c.length ≤ c'.length := by
  induction ds with
  | nil =>
    intro c c' h
    cases h
    exact le_rfl
  | cons d rest ih =>
    intro c c' h
    simp only [insertAll, bind, Option.bind_eq_some] at h
    obtain ⟨c₁, hc₁, hrest⟩ := h
    exact le_trans (insert_one_length c c₁ d hc₁).1 (ih c₁ c' hrest)

theorem insertAll_length_pos (ds : List Doc) (hne : ds ≠ []) :
    ∀ c c' : MockCollection, insertAll c ds = some c' → 0 < c'.length := by
  cases ds with
  | nil => exact absurd rfl hne
  | cons d rest =>
    intro c c' h
    simp only [insertAll, bind, Option.bind_eq_some] at h
    obtain ⟨c₁, hc₁, hrest⟩ := h
    exact lt_of_lt_of_le (insert_one_length c c₁ d hc₁).2 (insertAll_length rest c₁ c' hrest)

theorem insertTeachers_length (ts : List Doc) : ∀ c c' : MockCollection,
    insertTeachers c ts = some c' → c.length ≤ c'.length := by
  induction ts with
  | nil =>
    intro c c' h
    cases h
    exact le_rfl
  | cons t rest ih =>
    intro c c' h
    simp only [insertTeachers, bind, Option.bind_eq_some] at h
    obtain ⟨d, _, c₁, hc₁, hrest⟩ := h
    exact le_trans (insert_one_length c c₁ d hc₁).1 (ih c₁ c' hrest)

theorem insertTeachers_length_pos (ts : List Doc) (hne : ts ≠ []) :
    ∀ c c' : MockCollection, insertTeachers c ts = some c' → 0 < c'.length := by
  cases ts with
  | nil => exact absurd rfl hne
  | cons t rest =>
    intro c c' h
    simp only [insertTeachers, bind, Option.bind_eq_some] at h
    obtain ⟨d, _, c₁, hc₁, hrest⟩ := h
    exact lt_of_lt_of_le (insert_one_length c c₁ d hc₁).2
      (insertTeachers_length rest c₁ c' hrest)

/-- **C6.** The bootstrap loader seeds a collection only when its count is
zero, and is idempotent: whatever state a first call produces, a second
call performs no inserts and returns that state unchanged. -/
theorem init_database_idempotent (hash_password : String → String) :
    (∀ acts teach acts' teach' : MockCollection,
      init_database hash_password acts teach = some (acts', teach') →
      init_database hash_password acts' teach' = some (acts', teach')) ∧
    (∀ acts teach : MockCollection,
      MockCollection.count_documents acts [] ≠ 0 →
      MockCollection.count_documents teach [] ≠ 0 →
      init_database hash_password acts teach = some (acts, teach)) := by
  have key : ∀ acts teach : MockCollection,
      MockCollection.count_documents acts [] ≠ 0 →
      MockCollection.count_documents teach [] ≠ 0 →
      init_database hash_password acts teach = some (acts, teach) := by
    intro acts teach h1 h2
    simp [init_database, h1, h2]
  refine ⟨?_, key⟩
  intro acts teach acts' teach' h
  have heq : init_database hash_password acts teach =
      (if MockCollection.count_documents acts [] = 0 then
        insertAll acts (initial_activities.map activitySeedDoc)
      else pure acts).bind (fun A =>
        (if MockCollection.count_documents teach [] = 0 then
          insertTeachers teach (initial_teachers hash_password)
        else pure teach).bind (fun T => some (A, T))) := by
    unfold init_database
    by_cases h1 : MockCollection.count_documents acts [] = 0 <;>
      by_cases h2 : MockCollection.count_documents teach [] = 0 <;>
      simp [h1, h2]
  rw [heq] at h
  rcases hA : (if MockCollection.count_documents acts [] = 0 then
      insertAll acts (initial_activities.map activitySeedDoc)
    else pure acts) with _ | A
  · rw [hA, Option.none_bind] at h
    cases h
  rcases hT : (if MockCollection.count_documents teach [] = 0 then
      insertTeachers teach (initial_teachers hash_password)
    else pure teach) with _ | T
  · rw [hA, Option.some_bind, hT, Option.none_bind] at h
    cases h
  rw [hA, Option.some_bind, hT, Option.some_bind] at h
  have hpair : (A, T) = (acts', teach') := Option.some.inj h
  injection hpair with hA' hT'
  subst hA'
  subst hT'
  have hA0 : MockCollection.count_documents A [] ≠ 0 := by
    by_cases h1 : MockCollection.count_documents acts [] = 0
    · rw [if_pos h1] at hA
      exact Nat.pos_iff_ne_zero.mp (insertAll_length_pos _
        (by simp [initial_activities]) acts A hA)
    · rw [if_neg h1] at hA
      cases hA
      exact h1
  have hT0 : MockCollection.count_documents T [] ≠ 0 := by
    by_cases h2 : MockCollection.count_documents teach [] = 0
    · rw [if_pos h2] at hT
      exact Nat.pos_iff_ne_zero.mp (insertTeachers_length_pos _
        (by simp [initial_teachers]) teach T hT)
    · rw [if_neg h2] at hT
      cases hT
      exact h2
  exact key A T hA0 hT0

/-- Witness for C6: a second run on the state the loader produced from two
empty collections changes nothing, with the identity standing in for the
external hash. -/
theorem init_database_idempotent_witness :
    init_database (fun s => s) seededActivities
      [(Value.str "mrodriguez",
        [("_id", Value.str "mrodriguez"), ("username", Value.str "mrodriguez"),
         ("display_name", Value.str "Ms. Rodriguez"),
         ("password", Value.str "art123"), ("role", Value.str "teacher")]),
       (Value.str "mchen",
        [("_id", Value.str "mchen"), ("username", Value.str "mchen"),
         ("display_name", Value.str "Mr. Chen"),
         ("password", Value.str "chess456"), ("role", Value.str "teacher")]),
       (Value.str "principal",
        [("_id", Value.str "principal"), ("username", Value.str "principal"),
         ("display_name", Value.str "Principal Martinez"),
         ("password", Value.str "admin789"), ("role", Value.str "admin")])] =
      some (seededActivities,
       [(Value.str "mrodriguez",
        [("_id", Value.str "mrodriguez"), ("username", Value.str "mrodriguez"),
         ("display_name", Value.str "Ms. Rodriguez"),
         ("password", Value.str "art123"), ("role", Value.str "teacher")]),
        (Value.str "mchen",
        [("_id", Value.str "mchen"), ("username", Value.str "mchen"),
         ("display_name", Value.str "Mr. Chen"),
         ("password", Value.str "chess456"), ("role", Value.str "teacher")]),
        (Value.str "principal",
        [("_id", Value.str "principal"), ("username", Value.str "principal"),
         ("display_name", Value.str "Principal Martinez"),
         ("password", Value.str "admin789"), ("role", Value.str "admin")])]) :=
  (init_database_idempotent (fun s => s)).1 [] [] _ _ (by rfl)

/-! ### Query semantics of `find` (C1) -/

theorem strLt_data_iff (s b : String) : s.data < b.data ↔ s < b := by
  rw [String.lt_iff_toList_lt]
  exact Iff.rfl

theorem SpecCondMatch_days_iff (doc : Doc) (cond : Cond) :
    SpecCondMatch doc "schedule_details.days" cond ↔
      ∃ ts, lookup? cond "$in" = some (Value.list ts) ∧
        ∃ ds, MockCollection.docDaysVal doc = Value.list ds ∧ ∃ x ∈ ds, x ∈ ts := by
  unfold SpecCondMatch
  rw [if_pos rfl]

theorem SpecCondMatch_start_iff (doc : Doc) (cond : Cond) :
    SpecCondMatch doc "schedule_details.start_time" cond ↔
      ∃ b, lookup? cond "$gte" = some (Value.str b) ∧
        ∃ s, MockCollection.docStartVal doc = Value.str s ∧ b ≤ s := by
  unfold SpecCondMatch
  rw [if_neg (by decide), if_pos rfl]

theorem SpecCondMatch_end_iff (doc : Doc) (cond : Cond) :
    SpecCondMatch doc "schedule_details.end_time" cond ↔
      ∃ b, lookup? cond "$lte" = some (Value.str b) ∧
        ∃ s, MockCollection.docEndVal doc = Value.str s ∧ s ≤ b := by
  unfold SpecCondMatch
  rw [if_neg (by decide), if_neg (by decide), if_pos rfl]

theorem condHolds_spec (doc : Doc) (path : String) (cond : Cond)
    (hdoc : ScheduleWF doc)
    (hrec : (path = "schedule_details.days" ∧
        ∃ ts, lookup? cond "$in" = some (Value.list ts)) ∨
      (path = "schedule_details.start_time" ∧
        ∃ b, lookup? cond "$gte" = some (Value.str b)) ∨
      (path = "schedule_details.end_time" ∧
        ∃ b, lookup? cond "$lte" = some (Value.str b))) :
    ∃ bb, MockCollection.condHolds doc path cond = some bb ∧
      (bb = true ↔ SpecCondMatch doc path cond) := by
  obtain ⟨⟨ds, hds⟩, ⟨st, hst⟩, ⟨en, hen⟩⟩ := hdoc
  rcases hrec with ⟨hp, ts, hin⟩ | ⟨hp, b, hin⟩ | ⟨hp, b, hin⟩
  · subst hp
    refine ⟨ts.any (fun t => ds.contains t), ?_, ?_⟩
    · simp [MockCollection.condHolds, hin, MockCollection.anyIn, hds]
    · rw [SpecCondMatch_days_iff, List.any_eq_true]
      constructor
      · rintro ⟨t, ht, htds⟩
        exact ⟨ts, hin, ds, hds, t, List.elem_iff.mp htds, ht⟩
      · rintro ⟨ts', hts', ds', hds', x, hx, hxts⟩
        have hts : ts' = ts := by
          rw [hin] at hts'
          exact (Value.list.inj (Option.some.inj hts')).symm
        have hdse : ds' = ds := by
          rw [hds] at hds'
          exact (Value.list.inj hds').symm
        subst hts
        subst hdse
        exact ⟨x, hxts, List.elem_iff.mpr hx⟩
  · subst hp
    refine ⟨!decide (st.data < b.data), ?_, ?_⟩
    · simp [MockCollection.condHolds, hin, MockCollection.valueLt, hst]
    · rw [SpecCondMatch_start_iff, Bool.not_eq_true', decide_eq_false_iff_not,
        strLt_data_iff, not_lt]
      constructor
      · intro hbs
        exact ⟨b, hin, st, hst, hbs⟩
      · rintro ⟨b', hb', s', hs', hbs⟩
        have hbe : b' = b := by
          rw [hin] at hb'
          exact (Value.str.inj (Option.some.inj hb')).symm
        have hse : s' = st := by
          rw [hst] at hs'
          exact (Value.str.inj hs').symm
        subst hbe
        subst hse
        exact hbs
  · subst hp
    refine ⟨!decide (b.data < en.data), ?_, ?_⟩
    · simp [MockCollection.condHolds, hin, MockCollection.valueLt, hen]
    · rw [SpecCondMatch_end_iff, Bool.not_eq_true', decide_eq_false_iff_not,
        strLt_data_iff, not_lt]
      constructor
      · intro hbs
        exact ⟨b, hin, en, hen, hbs⟩
      · rintro ⟨b', hb', s', hs', hbs⟩
        have hbe : b' = b := by
          rw [hin] at hb'
          exact (Value.str.inj (Option.some.inj hb')).symm
        have hse : s' = en := by
          rw [hen] at hs'
          exact (Value.str.inj hs').symm
        subst hbe
        subst hse
        exact hbs

theorem docMatches_spec (doc : Doc) (hdoc : ScheduleWF doc) :
    ∀ q : Query, RecognizedQuery q →
      ∃ bb, MockCollection.docMatches doc q = some bb ∧
        (bb = true ↔ ∀ pc ∈ q, SpecCondMatch doc pc.1 pc.2) := by
  intro q
  induction q with
  | nil => exact fun _ => ⟨true, rfl, by simp⟩
  | cons pc rest ih =>
    intro hq
    obtain ⟨bb, hbb, hiff⟩ := condHolds_spec doc pc.1 pc.2 hdoc
      (hq pc (List.mem_cons_self pc rest))
    obtain ⟨bb', hbb', hiff'⟩ := ih (fun pc' hpc' => hq pc' (List.mem_cons_of_mem pc hpc'))
    cases bb
    · refine ⟨false, ?_, ?_⟩
      · simp [MockCollection.docMatches, hbb]
      · simp only [Bool.false_eq_true, false_iff]
        intro hall
        exact (by simpa using hiff.mpr (hall pc (List.mem_cons_self pc rest)))
    · refine ⟨bb', ?_, ?_⟩
      · simp [MockCollection.docMatches, hbb, hbb']
      · rw [hiff']
        constructor
        · intro hall pc' hpc'
          rcases List.mem_cons.mp hpc' with h | h
          · subst h
            exact hiff.mp rfl
          · exact hall pc' h
        · intro hall pc' hpc'
          exact hall pc' (List.mem_cons_of_mem pc hpc')

theorem findFiltered_spec (q : Query) (hq : RecognizedQuery q) :
    ∀ c : MockCollection, (∀ p ∈ c, ScheduleWF p.2) →
      ∃ res, MockCollection.findFiltered q c = some res ∧
        ∀ out, out ∈ res ↔ ∃ p ∈ c, out = MockCollection.withId p.1 p.2 ∧
          ∀ pc ∈ q, SpecCondMatch p.2 pc.1 pc.2 := by
  intro c
  induction c with
  | nil => exact fun _ => ⟨[], rfl, by simp⟩
  | cons p rest ih =>
    intro hc
    obtain ⟨bb, hbb, hiff⟩ := docMatches_spec p.2 (hc p (List.mem_cons_self p rest)) q hq
    obtain ⟨res', hres', hmem'⟩ := ih (fun p' hp' => hc p' (List.mem_cons_of_mem p hp'))
    cases bb
    · refine ⟨res', ?_, ?_⟩
      · simp [MockCollection.findFiltered, hbb, hres']
      · intro out
        rw [hmem' out]
        constructor
        · rintro ⟨p', hp', hout, hall⟩
          exact ⟨p', List.mem_cons_of_mem p hp', hout, hall⟩
        · rintro ⟨p', hp', hout, hall⟩
          rcases List.mem_cons.mp hp' with h | h
          · subst h
            exact absurd (hiff.mpr hall) (by simp)
          · exact ⟨p', h, hout, hall⟩
    · refine ⟨MockCollection.withId p.1 p.2 :: res', ?_, ?_⟩
      · simp [MockCollection.findFiltered, hbb, hres']
      · intro out
        rw [List.mem_cons, hmem' out]
        constructor
        · rintro (h | ⟨p', hp', hout, hall⟩)
          · exact ⟨p, List.mem_cons_self p rest, h, hiff.mp rfl⟩
          · exact ⟨p', List.mem_cons_of_mem p hp', hout, hall⟩
        · rintro ⟨p', hp', hout, hall⟩
          rcases List.mem_cons.mp hp' with h | h
          · subst h
            exact Or.inl hout
          · exact Or.inr ⟨p', h, hout, hall⟩

/-- **C1.** On schedule-well-formed documents and a query over the
recognized field paths, `find` returns exactly the documents satisfying all
supplied conditions (logical AND), where `$in` on days means non-empty
intersection, `$gte` on `start_time` means lexically ≥ the bound (default
`"00:00"`), `$lte` on `end_time` means lexically ≤ the bound (default
`"23:59"`); in particular on the two documents of testable property 3 the
property-3 query returns exactly the first document. -/
theorem find_and_semantics (c : MockCollection) (q : Query)
    (hq : RecognizedQuery q) (hc : ∀ p ∈ c, ScheduleWF p.2) :
    (∃ res, MockCollection.find c (some q) = some res ∧
      ∀ out, out ∈ res ↔ ∃ p ∈ c, out = MockCollection.withId p.1 p.2 ∧
        ∀ pc ∈ q, SpecCondMatch p.2 pc.1 pc.2) ∧
    MockCollection.find propThreeColl (some propThreeQuery) =
      some [MockCollection.withId (Value.str "A") propThreeDocA] := by
  refine ⟨?_, by decide⟩
  rcases hqe : q with _ | ⟨pc, rest⟩
  · subst hqe
    refine ⟨MockCollection.allWithId c, rfl, ?_⟩
    intro out
    rw [MockCollection.allWithId, List.mem_map]
    constructor
    · rintro ⟨p, hp, hout⟩
      exact ⟨p, hp, hout.symm, fun pc hpc => absurd hpc (List.not_mem_nil pc)⟩
    · rintro ⟨p, hp, hout, _⟩
      exact ⟨p, hp, hout.symm⟩
  · obtain ⟨res, hres, hmem⟩ := findFiltered_spec q hq c hc
    rw [← hqe]
    refine ⟨res, ?_, hmem⟩
    rw [MockCollection.find, if_neg (by rw [hqe]; simp)]
    exact hres

/-- Witness for C1: the property-3 instance, with the hypotheses discharged
at the property-3 collection and query. -/
theorem find_and_semantics_witness :
    MockCollection.find propThreeColl (some propThreeQuery) =
      some [MockCollection.withId (Value.str "A") propThreeDocA] := by
  refine (find_and_semantics propThreeColl propThreeQuery ?_ ?_).2
  · intro pc hpc
    rcases (by simpa [propThreeQuery] using hpc :
        pc = ("schedule_details.days", [("$in", Value.list [Value.str "Friday"])]) ∨
        pc = ("schedule_details.start_time", [("$gte", Value.str "12:00")])) with h | h
    · subst h
      exact Or.inl ⟨rfl, [Value.str "Friday"], rfl⟩
    · subst h
      exact Or.inr (Or.inl ⟨rfl, "12:00", rfl⟩)
  · intro p hp
    rcases (by simpa [propThreeColl] using hp :
        p = (Value.str "A", propThreeDocA) ∨ p = (Value.str "B", propThreeDocB)) with h | h
    · subst h
      exact ⟨⟨[Value.str "Monday", Value.str "Friday"], rfl⟩, ⟨"15:15", rfl⟩, ⟨"16:45", rfl⟩⟩
    · subst h
      exact ⟨⟨[Value.str "Tuesday"], rfl⟩, ⟨"07:00", rfl⟩, ⟨"08:00", rfl⟩⟩

/-! ### Distinct-days aggregation (C5) -/

theorem asStrings_eq : ∀ (vs : List Value) (ss : List String),
    MockCollection.asStrings vs = some ss → vs = ss.map Value.str := by
  intro vs
  induction vs with
  | nil =>
    intro ss h
    cases h
    rfl
  | cons v rest ih =>
    intro ss h
    cases v with
    | str s =>
      simp only [MockCollection.asStrings, Option.map_eq_some'] at h
      obtain ⟨tail, htail, rfl⟩ := h
      simp [ih tail htail]
    | int _ => exact absurd h (by simp [MockCollection.asStrings])
    | list _ => exact absurd h (by simp [MockCollection.asStrings])
    | obj _ => exact absurd h (by simp [MockCollection.asStrings])

theorem collectDays_mem : ∀ (c : MockCollection) (vals : List Value),
    MockCollection.collectDays c = some vals →
    ∀ v, v ∈ vals ↔ ∃ p ∈ c, ∃ ds,
      MockCollection.asList (MockCollection.docDaysVal p.2) = some ds ∧ v ∈ ds := by
  intro c
  induction c with
  | nil =>
    intro vals h v
    cases h
    simp
  | cons p rest ih =>
    intro vals h v
    rcases hds : MockCollection.asList (MockCollection.docDaysVal p.2) with _ | ds
    · rw [MockCollection.collectDays, hds] at h
      cases h
    · rw [MockCollection.collectDays, hds] at h
      obtain ⟨tailVals, htail, rfl⟩ := Option.map_eq_some'.mp h
      rw [List.mem_append]
      constructor
      · rintro (hv | hv)
        · exact ⟨p, List.mem_cons_self p rest, ds, hds, hv⟩
        · obtain ⟨p', hp', ds', hds', hv'⟩ := (ih tailVals htail v).mp hv
          exact ⟨p', List.mem_cons_of_mem p hp', ds', hds', hv'⟩
      · rintro ⟨p', hp', ds', hds', hv'⟩
        rcases List.mem_cons.mp hp' with hpe | hpe
        · subst hpe
          rw [hds] at hds'
          cases hds'
          exact Or.inl hv'
        · exact Or.inr ((ih tailVals htail v).mpr ⟨p', hpe, ds', hds', hv'⟩)

/-- **C5.** Whenever `aggregate` returns, it returns records `{"_id": day}`
for exactly the union of all `schedule_details.days` values across all
documents, each distinct day exactly once, sorted lexicographically; in
particular, on the seeded activity catalog it returns the seven weekday
names, each once, in lexicographic order. -/
theorem aggregate_distinct_days (c : MockCollection) (l : List Doc)
    (h : MockCollection.aggregate c [] = some l) :
    (∃ days : List String,
      l = days.map (fun day => [("_id", Value.str day)]) ∧
      days.Nodup ∧ days.Sorted (· ≤ ·) ∧
      ∀ s : String, s ∈ days ↔ ∃ p ∈ c, ∃ ds,
        MockCollection.asList (MockCollection.docDaysVal p.2) = some ds ∧
        Value.str s ∈ ds) ∧
    MockCollection.aggregate seededActivities [] = some
      ((["Friday", "Monday", "Saturday", "Sunday", "Thursday", "Tuesday",
        "Wednesday"]).map (fun day => [("_id", Value.str day)])) := by
  refine ⟨?_, by decide⟩
  simp only [MockCollection.aggregate, bind, Option.bind_eq_some, Option.pure_def,
    Option.some.injEq] at h
  obtain ⟨dayVals, hdays, ss, hss, hl⟩ := h
  refine ⟨@List.insertionSort String (fun a b => a ≤ b) MockCollection.decStrLe
    ss.dedup, hl.symm, ?_, ?_, ?_⟩
  · exact (@List.perm_insertionSort String (fun a b => a ≤ b)
      MockCollection.decStrLe ss.dedup).symm.nodup (List.nodup_dedup ss)
  · exact @List.sorted_insertionSort String (fun a b => a ≤ b)
      MockCollection.decStrLe inferInstance inferInstance ss.dedup
  · intro s
    rw [(@List.perm_insertionSort String (fun a b => a ≤ b)
      MockCollection.decStrLe ss.dedup).mem_iff, List.mem_dedup]
    have hmem : s ∈ ss ↔ Value.str s ∈ dayVals := by
      rw [asStrings_eq dayVals ss hss]
      constructor
      · intro hs
        exact List.mem_map_of_mem Value.str hs
      · intro hs
        obtain ⟨a, ha, hae⟩ := List.mem_map.mp hs
        cases Value.str.inj hae
        exact ha
    rw [hmem]
    exact collectDays_mem c dayVals hdays (Value.str s)

/-- Witness for C5: the seeded catalog instance with the completion
hypothesis discharged by computation. -/
theorem aggregate_distinct_days_witness :
    MockCollection.aggregate seededActivities [] = some
      ((["Friday", "Monday", "Saturday", "Sunday", "Thursday", "Tuesday",
        "Wednesday"]).map (fun day => [("_id", Value.str day)])) :=
  (aggregate_distinct_days seededActivities
    ((["Friday", "Monday", "Saturday", "Sunday", "Thursday", "Tuesday",
      "Wednesday"]).map (fun day => [("_id", Value.str day)])) (by decide)).2

end MockDB
